import Mathlib

/-!
Verification development for the stringdriver repository.

The repository contains three firmware variants of the stepper Axis
Controller:

* the Raspberry Pi Pico tuner variant (first half of the combined firmware
  source): 6 tuner steppers, shared tMIN/tMAX bounds, shared tSpeed and
  tAcceleration, per-axis limit switches read in checkPins, and CmdMessenger
  callbacks on_amove, on_rmove, on_reset_all, on_reset_stepper,
  on_set_stepper, on_set_accel, on_set_speed, on_set_min, on_set_max;
* the String_Driver2 variant (Reference ONLY tree): 13 steppers, a 2-row
  minmax table (x row for axis 0, z row for axes 1..12), stepperAMove and
  stepperRMove that execute a move only when the target is inside the bounds;
* the Mega tuner/gantry/coil variant (second half of the combined firmware
  source): 7 steppers, a 3-row minmax table, stepperAMove and stepperRMove
  where the gantry axis (index 2) doubles the relative delta and widens
  the bound window.

Each AccelStepper axis is modelled by a `Stepper` record.  The `counter`
field is the hardware position counter (AccelStepper currentPosition);
`phys` is the physical shaft displacement, which changes exactly when step
pulses are emitted; `setCurrentPosition` rewrites the counter without
touching `phys`, while `runToNewPosition` moves both in lockstep.  The
host-side Position Model Synchronizer and Operation Sequencer are Rust
programs that are not part of the source tree; the rest-gate and run-lock
definitions near the end are modelled from the specification and marked as
such.
-/

/-- One AccelStepper axis.  `counter` is the hardware position counter,
`phys` the physical shaft position (changes only when steps are emitted),
`target` the AccelStepper target position. -/
structure Stepper where
  counter : Int
  phys : Int
  target : Int
  maxSpeed : Int
  speed : Int
  accel : Int
  enabled : Bool
deriving Repr, DecidableEq

/-- AccelStepper setCurrentPosition: rewrites the counter (and the internal
target, and zeroes the instantaneous speed) without emitting any step, so
the physical position `phys` is unchanged. -/
def Stepper.setCurrentPosition (st : Stepper) (v : Int) : Stepper :=
  { st with counter := v, target := v, speed := 0 }

/-- AccelStepper runToNewPosition: blocking move; returns only when the
counter has reached the target, emitting one step pulse per count, so the
physical position moves by the same amount. -/
def Stepper.runToNewPosition (st : Stepper) (t : Int) : Stepper :=
  { st with counter := t, target := t, phys := st.phys + (t - st.counter) }

/-- AccelStepper moveTo: sets the target position only. -/
def Stepper.moveTo (st : Stepper) (t : Int) : Stepper :=
  { st with target := t }

/-- AccelStepper stop: in this discrete model (no deceleration ramp) the
stopping distance is zero, so stopping sets the target to the current
counter, ending any in-flight motion. -/
def Stepper.stop (st : Stepper) : Stepper :=
  { st with target := st.counter }

/-- The stepperStop helper of the String_Driver2 and Mega variants performs
stop() followed by move(0), i.e. target := counter + 0. -/
def Stepper.stopMove (st : Stepper) : Stepper :=
  { st with target := st.counter }

def Stepper.enableOutputs (st : Stepper) : Stepper :=
  { st with enabled := true }

def Stepper.disableOutputs (st : Stepper) : Stepper :=
  { st with enabled := false }

def Stepper.setMaxSpeed (st : Stepper) (v : Int) : Stepper :=
  { st with maxSpeed := v }

def Stepper.setSpeed (st : Stepper) (v : Int) : Stepper :=
  { st with speed := v }

def Stepper.setAcceleration (st : Stepper) (v : Int) : Stepper :=
  { st with accel := v }

/-- AccelStepper run: at most one step toward the target per call. -/
def Stepper.runStep (st : Stepper) : Stepper :=
  if st.counter < st.target then
    { st with counter := st.counter + 1, phys := st.phys + 1 }
  else if st.target < st.counter then
    { st with counter := st.counter - 1, phys := st.phys - 1 }
  else st

/-- Point update of a Nat-indexed stepper bank. -/
def updAt (f : Nat → Stepper) (i : Nat) (st : Stepper) : Nat → Stepper :=
  fun j => if j = i then st else f j

/-- Observable controller events: a decoded host frame, a limit-sensor
read, a single step pulse, and the begin/end of a blocking host-commanded
runToNewPosition move. -/
inductive Ev where
  | decode : Ev
  | sensorRead : Nat → Ev
  | step : Nat → Ev
  | moveBegin : Nat → Ev
  | moveEnd : Nat → Ev
deriving Repr, DecidableEq

/-- Trace of a blocking runToNewPosition call on axis `i` starting from
stepper state `st`: the move opens, emits one step per count of travel,
and closes before the call returns. -/
def runToNewPositionTrace (i : Nat) (st : Stepper) (t : Int) : List Ev :=
  Ev.moveBegin i :: (List.replicate (t - st.counter).natAbs (Ev.step i) ++ [Ev.moveEnd i])

/-- Sequential clamping as in the Pico on_amove/on_rmove source:
first raise to the lower bound, then cap at the upper bound. -/
def clampSeq (lo hi x : Int) : Int :=
  let t1 := if x < lo then lo else x
  if hi < t1 then hi else t1

namespace Pico

/-- NUM_T_STEPPERS of the Pico tuner variant. -/
def NUM_T_STEPPERS : Nat := 6

/-- State of the Pico tuner firmware: 6 steppers plus the shared speed,
acceleration and travel-bound variables. -/
structure PicoState where
  steppers : Nat → Stepper
  tSpeed : Int
  tAcceleration : Int
  tMIN : Int
  tMAX : Int

/-- Pico on_amove: read which/where, validate the axis index, clamp the
target sequentially to [tMIN, tMAX], then setMaxSpeed(tSpeed),
enableOutputs, runToNewPosition (blocking), disableOutputs. -/
def on_amove (s : PicoState) (which wh : Int) : PicoState × List Ev :=
  if 0 ≤ which ∧ which < (NUM_T_STEPPERS : Int) then
    let i := which.toNat
    let target := clampSeq s.tMIN s.tMAX wh
    let st2 := ((s.steppers i).setMaxSpeed s.tSpeed).enableOutputs
    ({ s with steppers := updAt s.steppers i ((st2.runToNewPosition target).disableOutputs) },
     runToNewPositionTrace i st2 target)
  else (s, [])

/-- Pico on_rmove: identical to on_amove except that the pre-clamp target
is currentPosition + where. -/
def on_rmove (s : PicoState) (which wh : Int) : PicoState × List Ev :=
  if 0 ≤ which ∧ which < (NUM_T_STEPPERS : Int) then
    let i := which.toNat
    let target := clampSeq s.tMIN s.tMAX ((s.steppers i).counter + wh)
    let st2 := ((s.steppers i).setMaxSpeed s.tSpeed).enableOutputs
    ({ s with steppers := updAt s.steppers i ((st2.runToNewPosition target).disableOutputs) },
     runToNewPositionTrace i st2 target)
  else (s, [])

/-- Pico on_reset_all: setCurrentPosition(0) on every stepper. -/
def on_reset_all (s : PicoState) : PicoState × List Ev :=
  ({ s with steppers := fun i =>
       if i < NUM_T_STEPPERS then (s.steppers i).setCurrentPosition 0 else s.steppers i },
   [])

/-- Pico on_reset_stepper: validated; setCurrentPosition(0) on one axis. -/
def on_reset_stepper (s : PicoState) (which : Int) : PicoState × List Ev :=
  if 0 ≤ which ∧ which < (NUM_T_STEPPERS : Int) then
    ({ s with steppers := updAt s.steppers which.toNat ((s.steppers which.toNat).setCurrentPosition 0) }, [])
  else (s, [])

/-- Pico on_set_stepper: validated; setCurrentPosition(where) on one axis. -/
def on_set_stepper (s : PicoState) (which wh : Int) : PicoState × List Ev :=
  if 0 ≤ which ∧ which < (NUM_T_STEPPERS : Int) then
    ({ s with steppers := updAt s.steppers which.toNat ((s.steppers which.toNat).setCurrentPosition wh) }, [])
  else (s, [])

/-- Pico on_set_accel: per-axis setAcceleration only when the index is
valid, but the shared default tAcceleration is updated unconditionally. -/
def on_set_accel (s : PicoState) (which amount : Int) : PicoState × List Ev :=
  if 0 ≤ which ∧ which < (NUM_T_STEPPERS : Int) then
    ({ s with
        steppers := updAt s.steppers which.toNat ((s.steppers which.toNat).setAcceleration amount),
        tAcceleration := amount }, [])
  else ({ s with tAcceleration := amount }, [])

/-- Pico on_set_speed: per-axis setSpeed only when the index is valid, but
the shared tSpeed (the max speed used by runToNewPosition) is updated
unconditionally. -/
def on_set_speed (s : PicoState) (which amount : Int) : PicoState × List Ev :=
  if 0 ≤ which ∧ which < (NUM_T_STEPPERS : Int) then
    ({ s with
        steppers := updAt s.steppers which.toNat ((s.steppers which.toNat).setSpeed amount),
        tSpeed := amount }, [])
  else ({ s with tSpeed := amount }, [])

/-- Pico on_set_min: the which argument is read and ignored (the bound is
shared for all tuners); tMIN := amount. -/
def on_set_min (s : PicoState) (_which amount : Int) : PicoState × List Ev :=
  ({ s with tMIN := amount }, [])

/-- Pico on_set_max: the which argument is read and ignored; tMAX := amount. -/
def on_set_max (s : PicoState) (_which amount : Int) : PicoState × List Ev :=
  ({ s with tMAX := amount }, [])

/-- Pico checkPins body for axis i: increase switch active moves toward
tMAX, else decrease switch active moves toward tMIN, else stop.  A pin
pair is (increase active, decrease active); active = LOW. -/
def checkPinsStep (tMIN tMAX : Int) (pins : Nat → Bool × Bool) (i : Nat)
    (st : Stepper) : Stepper :=
  if (pins i).1 then st.moveTo tMAX
  else if (pins i).2 then st.moveTo tMIN
  else st.stop

/-- Pico checkPins: one sensor read and target override per axis, every
control-loop iteration.  (The boolean return value is not used by the Pico
loop.) -/
def checkPins (s : PicoState) (pins : Nat → Bool × Bool) : PicoState × List Ev :=
  ({ s with steppers := fun i =>
       if i < NUM_T_STEPPERS then checkPinsStep s.tMIN s.tMAX pins i (s.steppers i)
       else s.steppers i },
   (List.range NUM_T_STEPPERS).map Ev.sensorRead)

/-- The motor part of the Pico loop: enableOutputs for every axis, run()
(at most one step each), then disableOutputs for every axis. -/
def loopMotor (s : PicoState) : PicoState × List Ev :=
  ({ s with steppers := fun i =>
       if i < NUM_T_STEPPERS then ((s.steppers i).enableOutputs.runStep).disableOutputs
       else s.steppers i },
   (List.range NUM_T_STEPPERS).filterMap fun i =>
     if (s.steppers i).counter ≠ (s.steppers i).target then some (Ev.step i) else none)

/-- A decoded CmdMessenger frame of the Pico protocol. -/
inductive Frame where
  | command : Int → Frame
  | positions : Frame
  | amove : Int → Int → Frame
  | rmove : Int → Int → Frame
  | reset_all : Frame
  | reset_stepper : Int → Frame
  | set_stepper : Int → Int → Frame
  | set_accel : Int → Int → Frame
  | set_speed : Int → Int → Frame
  | set_min : Int → Int → Frame
  | set_max : Int → Int → Frame
  | t_size : Int → Frame
  | check_memory : Frame

/-- Dispatch one decoded frame to its callback.  on_command reads and
ignores its argument; on_positions and on_check_memory only send response
frames; on_t_size returns immediately on the Pico because the microstep
pins are not wired (MS1_PIN = MS2_PIN = MS3_PIN = -1). -/
def dispatch (s : PicoState) : Frame → PicoState × List Ev
  | .command _ => (s, [])
  | .positions => (s, [])
  | .amove which wh => on_amove s which wh
  | .rmove which wh => on_rmove s which wh
  | .reset_all => on_reset_all s
  | .reset_stepper which => on_reset_stepper s which
  | .set_stepper which wh => on_set_stepper s which wh
  | .set_accel which a => on_set_accel s which a
  | .set_speed which a => on_set_speed s which a
  | .set_min which a => on_set_min s which a
  | .set_max which a => on_set_max s which a
  | .t_size _ => (s, [])
  | .check_memory => (s, [])

/-- feedinSerialData over a batch of complete frames: each frame is decoded
and its callback runs to completion before the next byte is decoded. -/
def feedin (s : PicoState) : List Frame → PicoState × List Ev
  | [] => (s, [])
  | f :: fs =>
    let r := dispatch s f
    let rest := feedin r.1 fs
    (rest.1, (Ev.decode :: r.2) ++ rest.2)

/-- One iteration of the Pico loop: feedinSerialData, then checkPins, then
the enable/run/disable pass (then delay(2)). -/
def loopIter (s : PicoState) (frames : List Frame) (pins : Nat → Bool × Bool) :
    PicoState × List Ev :=
  let a := feedin s frames
  let b := checkPins a.1 pins
  let c := loopMotor b.1
  (c.1, a.2 ++ (b.2 ++ c.2))

/-- The tuner stepper state after the Pico setup(): position counter zeroed
by setCurrentPosition(0), max speed T_MAX_SPEED = 250, acceleration
T_DEFAULT_ACCELERATION = 10000, outputs disabled. -/
def initTStepper : Stepper :=
  { counter := 0, phys := 0, target := 0, maxSpeed := 250, speed := 0,
    accel := 10000, enabled := false }

/-- The Pico controller state after setup(): all six steppers zeroed,
tSpeed = T_MAX_SPEED = 250, tAcceleration = 10000, tMIN = -100000,
tMAX = 100000. -/
def picoInit : PicoState :=
  { steppers := fun _ => initTStepper, tSpeed := 250, tAcceleration := 10000,
    tMIN := -100000, tMAX := 100000 }

end Pico

namespace SD2

/-- State of the String_Driver2 variant: 13 steppers, the shared x/z speeds
and the two-row minmax table (row 0 = x bounds, row 1 = z bounds). -/
structure SD2State where
  steppers : Nat → Stepper
  xSpeed : Int
  zSpeed : Int
  minmax : Nat → Int × Int

/-- Bound-row selection of String_Driver2: int i = (j != 0). -/
def cat (j : Int) : Nat := if j = 0 then 0 else 1

/-- String_Driver2 stepperAMove: the move is executed only when the target
lies inside [minmax[i][0], minmax[i][1]]; otherwise nothing happens.  When
executed: setMaxSpeed (xSpeed for axis 0, zSpeed otherwise), enableOutputs,
runToNewPosition, then stepperStop (stop + move(0)). -/
def stepperAMove (s : SD2State) (j k : Int) : SD2State :=
  let i := cat j
  if (s.minmax i).1 ≤ k ∧ k ≤ (s.minmax i).2 then
    let sp := if j = 0 then s.xSpeed else s.zSpeed
    let st := ((((s.steppers j.toNat).setMaxSpeed sp).enableOutputs).runToNewPosition k).stopMove
    { s with steppers := updAt s.steppers j.toNat st }
  else s

/-- String_Driver2 stepperRMove: p = currentPosition + k, executed only
when p lies inside the same bound row stepperAMove uses. -/
def stepperRMove (s : SD2State) (j k : Int) : SD2State :=
  let i := cat j
  let p := (s.steppers j.toNat).counter + k
  if (s.minmax i).1 ≤ p ∧ p ≤ (s.minmax i).2 then
    let sp := if j = 0 then s.xSpeed else s.zSpeed
    let st := ((((s.steppers j.toNat).setMaxSpeed sp).enableOutputs).runToNewPosition p).stopMove
    { s with steppers := updAt s.steppers j.toNat st }
  else s

/-- The axis-0 (x) stepper state after the String_Driver2 setup(). -/
def initXStepper : Stepper :=
  { counter := 0, phys := 0, target := 0, maxSpeed := 500, speed := 0,
    accel := 10000, enabled := false }

/-- The z stepper state after the String_Driver2 setup(). -/
def initZStepper : Stepper :=
  { counter := 0, phys := 0, target := 0, maxSpeed := 100, speed := 0,
    accel := 10000, enabled := false }

/-- The String_Driver2 state after setup(): positions reset to zero,
xSpeed = xMAX_SPEED = 500, zSpeed = zMAX_SPEED = 100, and the default
bound table xMIN = 0, xMAX = 2600, zMIN = -100, zMAX = 100. -/
def sd2Init : SD2State :=
  { steppers := fun i => if i = 0 then initXStepper else initZStepper,
    xSpeed := 500, zSpeed := 100,
    minmax := fun i => if i = 0 then (0, 2600) else (-100, 100) }

end SD2

namespace Mega

/-- State of the Mega tuner/gantry/coil variant: 7 steppers and the
three-row minmax table (row 0 = tune, row 1 = gantry, row 2 = coil). -/
structure MegaState where
  steppers : Nat → Stepper
  minmax : Nat → Int × Int

/-- Bound-row selection of the Mega stepperRMove/stepperAMove switch:
axes 0 and 1 are tuners (row 0), axis 2 is the gantry (row 1), all other
axes are coils (row 2). -/
def cat (j : Int) : Nat := if j = 0 ∨ j = 1 then 0 else if j = 2 then 1 else 2

/-- Mega stepperStop, applied at the stepper level: stop(), move(0),
disableOutputs(). -/
def stopStepper (st : Stepper) : Stepper := (st.stopMove).disableOutputs

/-- Mega stepperRMove: for the gantry (j = 2) the target is
currentPosition + 2*k checked against the widened window
[min - max, 2*max]; for every other axis the target is
currentPosition + k checked against [min, max].  The move is executed only
when the target is inside the window (enableOutputs, runToNewPosition,
stepperStop); otherwise nothing happens. -/
def stepperRMove (s : MegaState) (j k : Int) : MegaState :=
  let i := cat j
  let st := s.steppers j.toNat
  let p := if j = 2 then st.counter + 2 * k else st.counter + k
  let thismin := if j = 2 then (s.minmax i).1 - (s.minmax i).2 else (s.minmax i).1
  let thismax := if j = 2 then 2 * (s.minmax i).2 else (s.minmax i).2
  if thismin ≤ p ∧ p ≤ thismax then
    let st2 := stopStepper ((st.enableOutputs).runToNewPosition p)
    { s with steppers := updAt s.steppers j.toNat st2 }
  else s

/-- Mega stepperAMove: the target k is checked against the plain
[min, max] row of the axis; executed only when inside. -/
def stepperAMove (s : MegaState) (j k : Int) : MegaState :=
  let i := cat j
  if (s.minmax i).1 ≤ k ∧ k ≤ (s.minmax i).2 then
    let st2 := stopStepper (((s.steppers j.toNat).enableOutputs).runToNewPosition k)
    { s with steppers := updAt s.steppers j.toNat st2 }
  else s

/-- Mega setMin: writes row j of the minmax table (the row shared by the
whole category, NOT a per-axis bound). -/
def setMin (s : MegaState) (j : Nat) (k : Int) : MegaState :=
  { s with minmax := fun r => if r = j then (k, (s.minmax r).2) else s.minmax r }

/-- Mega setMax: writes row j of the minmax table. -/
def setMax (s : MegaState) (j : Nat) (k : Int) : MegaState :=
  { s with minmax := fun r => if r = j then ((s.minmax r).1, k) else s.minmax r }

/-- A Mega stepper at position 0 (AccelStepper initial position). -/
def initMegaStepper : Stepper :=
  { counter := 0, phys := 0, target := 0, maxSpeed := 1000, speed := 0,
    accel := 10000, enabled := false }

/-- The Mega state at startup: positions 0 and the default bound table
tuneMin = -25000, tuneMax = 25000, gantryMin = 0, gantryMax = 10000,
coilMin = -100, coilMax = 100. -/
def megaInit : MegaState :=
  { steppers := fun _ => initMegaStepper,
    minmax := fun r => if r = 0 then (-25000, 25000)
                       else if r = 1 then (0, 10000) else (-100, 100) }

end Mega

namespace HostModel

/-- Modelled from the spec: the host-side Position Model Synchronizer (a
Rust program) is not in the source tree; only its documentation is.  Spec
section 4.2: a RestPolicy category maps to a configured minimum interval. -/
structure RestPolicy where
  interval : Nat

/-- Modelled from the spec: the per-category last-command timestamp kept by
the Synchronizer. -/
structure RestState where
  lastCmd : Nat

/-- Modelled from the spec: the rest gate checked before emitting any
motion command.  If the elapsed time since the last command in the
category is below the configured interval, the call is deferred (blocks)
until the interval has elapsed; otherwise it is emitted now.  The result
is the timestamp at which the command is actually emitted. -/
def restGateEmit (p : RestPolicy) (st : RestState) (now : Nat) : Nat :=
  if now < st.lastCmd + p.interval then st.lastCmd + p.interval else now

/-- Modelled from the spec: emitting a motion command through the rest
gate also records the emission time as the category's new last-command
timestamp. -/
def restGateStep (p : RestPolicy) (st : RestState) (now : Nat) : Nat × RestState :=
  let e := restGateEmit p st now
  (e, { lastCmd := e })

/-- Modelled from the spec: the Operation Sequencer's global RunLock,
held by at most one Operation (identified here by a number) at a time. -/
structure RunLock where
  holder : Option Nat

/-- Modelled from the spec: the error surfaced when starting an Operation
while another holds the RunLock. -/
inductive StartError where
  | OperationAlreadyRunning : StartError
deriving Repr, DecidableEq

/-- Modelled from the spec: terminal transitions of an Operation. -/
inductive OpOutcome where
  | success : OpOutcome
  | failure : OpOutcome
  | cancelled : OpOutcome
deriving Repr, DecidableEq

/-- Modelled from the spec: acquiring the RunLock for an Operation fails
immediately with OperationAlreadyRunning if any Operation currently holds
it, and otherwise hands the caller the held lock. -/
def tryAcquire (l : RunLock) (op : Nat) : Sum StartError RunLock :=
  match l.holder with
  | some _ => Sum.inl StartError.OperationAlreadyRunning
  | none => Sum.inr { holder := some op }

/-- Modelled from the spec: scoped-acquisition release; on every terminal
transition (success, failure or cancellation) the lock is released, with
no exit path leaking it. -/
def releaseOnTerminal (_l : RunLock) (_o : OpOutcome) : RunLock :=
  { holder := none }

end HostModel

/-- A host command restricted to the two motion opcodes, used to phrase the
travel-bounds invariant over arbitrary sequences of moves. -/
inductive MoveCmd where
  | amoveC : Int → Int → MoveCmd
  | rmoveC : Int → Int → MoveCmd

/-- Execute one motion command on the Pico controller (state part). -/
def execMove (s : Pico.PicoState) : MoveCmd → Pico.PicoState
  | .amoveC w t => (Pico.on_amove s w t).1
  | .rmoveC w d => (Pico.on_rmove s w d).1

/-- Execute a sequence of motion commands on the Pico controller. -/
def execMoves (s : Pico.PicoState) (l : List MoveCmd) : Pico.PicoState :=
  l.foldl execMove s

/-- True of step-pulse events only. -/
def isStep : Ev → Bool
  | .step _ => true
  | _ => false

/-- Scan of a controller trace.  The boolean carries whether a blocking
host-commanded move is currently open.  The scan fails (returns false) if
a move opens while another is open, a move closes with none open, a frame
is decoded or a limit sensor is read while a move is open, or the trace
ends with a move still open. -/
def movesAtomicAux : Bool → List Ev → Bool
  | false, [] => true
  | true, [] => false
  | b, Ev.moveBegin _ :: r => !b && movesAtomicAux true r
  | b, Ev.moveEnd _ :: r => b && movesAtomicAux false r
  | b, Ev.decode :: r => !b && movesAtomicAux b r
  | b, Ev.sensorRead _ :: r => !b && movesAtomicAux b r
  | b, Ev.step _ :: r => movesAtomicAux b r

/-- A trace is move-atomic when at most one host-commanded move is ever
open, every opened move closes, and no frame decode or sensor read happens
while a move is open. -/
def movesAtomic (t : List Ev) : Bool := movesAtomicAux false t

theorem updAt_self (f : Nat → Stepper) (i : Nat) (st : Stepper) :
    updAt f i st i = st := by
  simp [updAt]

theorem updAt_other (f : Nat → Stepper) (i : Nat) (st : Stepper) (j : Nat)
    (h : j ≠ i) : updAt f i st j = f j := by
  simp [updAt, h]

theorem clampSeq_mem (lo hi x : Int) (h : lo ≤ hi) :
    lo ≤ clampSeq lo hi x ∧ clampSeq lo hi x ≤ hi := by
  simp only [clampSeq]
  split_ifs <;> omega

theorem on_amove_counter (s : Pico.PicoState) (which wh : Int)
    (h0 : 0 ≤ which) (h6 : which < (Pico.NUM_T_STEPPERS : Int)) :
    ((Pico.on_amove s which wh).1.steppers which.toNat).counter
      = clampSeq s.tMIN s.tMAX wh := by
  simp only [Pico.on_amove]
  rw [if_pos ⟨h0, h6⟩]
  simp [updAt, Stepper.runToNewPosition, Stepper.disableOutputs,
    Stepper.enableOutputs, Stepper.setMaxSpeed]

theorem on_amove_maxSpeed (s : Pico.PicoState) (which wh : Int)
    (h0 : 0 ≤ which) (h6 : which < (Pico.NUM_T_STEPPERS : Int)) :
    ((Pico.on_amove s which wh).1.steppers which.toNat).maxSpeed = s.tSpeed := by
  simp only [Pico.on_amove]
  rw [if_pos ⟨h0, h6⟩]
  simp [updAt, Stepper.runToNewPosition, Stepper.disableOutputs,
    Stepper.enableOutputs, Stepper.setMaxSpeed]

theorem on_rmove_counter (s : Pico.PicoState) (which wh : Int)
    (h0 : 0 ≤ which) (h6 : which < (Pico.NUM_T_STEPPERS : Int)) :
    ((Pico.on_rmove s which wh).1.steppers which.toNat).counter
      = clampSeq s.tMIN s.tMAX ((s.steppers which.toNat).counter + wh) := by
  simp only [Pico.on_rmove]
  rw [if_pos ⟨h0, h6⟩]
  simp [updAt, Stepper.runToNewPosition, Stepper.disableOutputs,
    Stepper.enableOutputs, Stepper.setMaxSpeed]

theorem execMove_bounds (s : Pico.PicoState) (c : MoveCmd) :
    (execMove s c).tMIN = s.tMIN ∧ (execMove s c).tMAX = s.tMAX := by
  cases c with
  | amoveC w t =>
    simp only [execMove, Pico.on_amove]
    split <;> exact ⟨rfl, rfl⟩
  | rmoveC w d =>
    simp only [execMove, Pico.on_rmove]
    split <;> exact ⟨rfl, rfl⟩

theorem execMoves_bounds (l : List MoveCmd) :
    ∀ s : Pico.PicoState,
      (execMoves s l).tMIN = s.tMIN ∧ (execMoves s l).tMAX = s.tMAX := by
  induction l with
  | nil => intro s; exact ⟨rfl, rfl⟩
  | cons c l ih =>
    intro s
    have h1 := ih (execMove s c)
    have h2 := execMove_bounds s c
    exact ⟨h1.1.trans h2.1, h1.2.trans h2.2⟩

theorem movesAtomicAux_replicate (n i : Nat) (b : Bool) (r : List Ev) :
    movesAtomicAux b (List.replicate n (Ev.step i) ++ r) = movesAtomicAux b r := by
  induction n with
  | zero => rfl
  | succ n ih => simpa [List.replicate_succ, movesAtomicAux] using ih

theorem movesAtomicAux_span (i n : Nat) (r : List Ev) :
    movesAtomicAux false
      ((Ev.moveBegin i :: (List.replicate n (Ev.step i) ++ [Ev.moveEnd i])) ++ r)
    = movesAtomicAux false r := by
  simp [movesAtomicAux, List.append_assoc, movesAtomicAux_replicate,
    List.singleton_append]

theorem movesAtomicAux_sensors (l : List Nat) (r : List Ev) :
    movesAtomicAux false ((l.map Ev.sensorRead) ++ r) = movesAtomicAux false r := by
  induction l with
  | nil => rfl
  | cons x l ih => simpa [movesAtomicAux] using ih

theorem movesAtomicAux_allSteps (l : List Ev) (h : ∀ e ∈ l, isStep e = true)
    (r : List Ev) :
    movesAtomicAux false (l ++ r) = movesAtomicAux false r := by
  induction l with
  | nil => rfl
  | cons e l ih =>
    cases e with
    | step i =>
      simpa [movesAtomicAux] using ih (fun e he => h e (List.mem_cons_of_mem _ he))
    | decode => simpa [isStep] using h Ev.decode (List.mem_cons_self _ _)
    | sensorRead i => simpa [isStep] using h (Ev.sensorRead i) (List.mem_cons_self _ _)
    | moveBegin i => simpa [isStep] using h (Ev.moveBegin i) (List.mem_cons_self _ _)
    | moveEnd i => simpa [isStep] using h (Ev.moveEnd i) (List.mem_cons_self _ _)

theorem dispatch_trace_good (s : Pico.PicoState) (f : Pico.Frame) (r : List Ev) :
    movesAtomicAux false ((Pico.dispatch s f).2 ++ r) = movesAtomicAux false r := by
  cases f with
  | amove which wh =>
    simp only [Pico.dispatch, Pico.on_amove]
    split
    · exact movesAtomicAux_span _ _ r
    · rfl
  | rmove which wh =>
    simp only [Pico.dispatch, Pico.on_rmove]
    split
    · exact movesAtomicAux_span _ _ r
    · rfl
  | reset_stepper which =>
    simp only [Pico.dispatch, Pico.on_reset_stepper]
    split <;> rfl
  | set_stepper which wh =>
    simp only [Pico.dispatch, Pico.on_set_stepper]
    split <;> rfl
  | set_accel which a =>
    simp only [Pico.dispatch, Pico.on_set_accel]
    split <;> rfl
  | set_speed which a =>
    simp only [Pico.dispatch, Pico.on_set_speed]
    split <;> rfl
  | _ => rfl

theorem feedin_trace_good (fs : List Pico.Frame) :
    ∀ (s : Pico.PicoState) (r : List Ev),
      movesAtomicAux false ((Pico.feedin s fs).2 ++ r) = movesAtomicAux false r := by
  induction fs with
  | nil => intro s r; rfl
  | cons f fs ih =>
    intro s r
    show movesAtomicAux false
      (((Ev.decode :: (Pico.dispatch s f).2) ++ (Pico.feedin (Pico.dispatch s f).1 fs).2) ++ r)
      = movesAtomicAux false r
    rw [List.cons_append, List.cons_append, List.append_assoc]
    show movesAtomicAux false
      (Ev.decode :: ((Pico.dispatch s f).2 ++ _)) = _
    rw [show ∀ t, movesAtomicAux false (Ev.decode :: t) = movesAtomicAux false t
          from fun t => by simp [movesAtomicAux]]
    rw [dispatch_trace_good]
    exact ih _ r

theorem loopMotor_trace_steps (s : Pico.PicoState) :
    ∀ e ∈ (Pico.loopMotor s).2, isStep e = true := by
  intro e he
  simp only [Pico.loopMotor, List.mem_filterMap] at he
  obtain ⟨i, _, hi⟩ := he
  split at hi
  · cases hi; rfl
  · cases hi

/-- C1 counterexample: on the String_Driver2 variant, the absolute move
stepperAMove(0, 3000) with bounds [0, 2600] is dropped without any motion:
the counter stays 0, the physical position stays 0, and the axis is not
moved to the clamped value 2600.  This refutes the claim that an
out-of-range target is always clamped and executed, never dropped. -/
theorem sd2AMoveDropsOutOfRange :
    ((SD2.stepperAMove SD2.sd2Init 0 3000).steppers 0).counter = 0 ∧
    ((SD2.stepperAMove SD2.sd2Init 0 3000).steppers 0).phys = 0 ∧
    ((SD2.stepperAMove SD2.sd2Init 0 3000).steppers 0).counter ≠ 2600 := by
  decide

/-- C1 (amended): on the Pico tuner variant, for every valid axis index
and every target, on_amove clamps the target sequentially into
[tMIN, tMAX] and executes the move to completion: the counter lands on the
clamped target, the physical position moves by exactly the commanded
travel, the emitted trace is one complete blocking move span, and (when
tMIN ≤ tMAX) the landing point lies inside the bounds. -/
theorem picoAMoveClampsAndExecutes (s : Pico.PicoState) (which wh : Int)
    (h0 : 0 ≤ which) (h6 : which < (Pico.NUM_T_STEPPERS : Int)) :
    ((Pico.on_amove s which wh).1.steppers which.toNat).counter
      = clampSeq s.tMIN s.tMAX wh ∧
    ((Pico.on_amove s which wh).1.steppers which.toNat).phys
      = (s.steppers which.toNat).phys
        + (clampSeq s.tMIN s.tMAX wh - (s.steppers which.toNat).counter) ∧
    (∃ n, (Pico.on_amove s which wh).2
      = Ev.moveBegin which.toNat
          :: (List.replicate n (Ev.step which.toNat) ++ [Ev.moveEnd which.toNat])) ∧
    (s.tMIN ≤ s.tMAX →
      s.tMIN ≤ clampSeq s.tMIN s.tMAX wh ∧ clampSeq s.tMIN s.tMAX wh ≤ s.tMAX) := by
  refine ⟨on_amove_counter s which wh h0 h6, ?_, ?_, fun hb => clampSeq_mem _ _ _ hb⟩
  · simp only [Pico.on_amove]
    rw [if_pos ⟨h0, h6⟩]
    simp [updAt, Stepper.runToNewPosition, Stepper.disableOutputs,
      Stepper.enableOutputs, Stepper.setMaxSpeed]
  · simp only [Pico.on_amove]
    rw [if_pos ⟨h0, h6⟩]
    exact ⟨_, rfl⟩

/-- C1 witness: a far-out-of-range target 150000 on axis 0 of the freshly
initialised Pico controller is clamped to tMAX = 100000 and executed. -/
theorem picoAMoveClampsAndExecutes_witness :
    ((0 : Int) ≤ 0 ∧ (0 : Int) < (Pico.NUM_T_STEPPERS : Int)) ∧
    ((Pico.on_amove Pico.picoInit 0 150000).1.steppers (Int.toNat 0)).counter = 100000 ∧
    (∃ n, (Pico.on_amove Pico.picoInit 0 150000).2
      = Ev.moveBegin (Int.toNat 0)
          :: (List.replicate n (Ev.step (Int.toNat 0)) ++ [Ev.moveEnd (Int.toNat 0)])) := by
  refine ⟨⟨by decide, by decide⟩, ?_, ?_⟩
  · exact ((picoAMoveClampsAndExecutes Pico.picoInit 0 150000 (by decide) (by decide)).1).trans
      (by decide)
  · exact (picoAMoveClampsAndExecutes Pico.picoInit 0 150000 (by decide) (by decide)).2.2.1

/-- C2: after every completed move of any move-command sequence the
position counter lies inside the configured travel bounds.  First part:
on the Pico variant, for every starting state with tMIN ≤ tMAX, every
sequence of absolute/relative moves and every final move on a valid axis,
the moved axis lands inside [tMIN, tMAX] (clamping).  Second and third
parts: on the String_Driver2 variant a move is completed exactly when its
target is inside the bound row, landing on that in-range target, and an
out-of-range request leaves the whole state unchanged (no motion at all),
so there too every completed move ends inside the bounds. -/
theorem movesStayInBounds :
    (∀ (s0 : Pico.PicoState) (cmds : List MoveCmd) (which t : Int),
      s0.tMIN ≤ s0.tMAX → 0 ≤ which → which < (Pico.NUM_T_STEPPERS : Int) →
      (s0.tMIN ≤ ((execMove (execMoves s0 cmds) (MoveCmd.amoveC which t)).steppers which.toNat).counter ∧
        ((execMove (execMoves s0 cmds) (MoveCmd.amoveC which t)).steppers which.toNat).counter ≤ s0.tMAX) ∧
      (s0.tMIN ≤ ((execMove (execMoves s0 cmds) (MoveCmd.rmoveC which t)).steppers which.toNat).counter ∧
        ((execMove (execMoves s0 cmds) (MoveCmd.rmoveC which t)).steppers which.toNat).counter ≤ s0.tMAX)) ∧
    (∀ (s : SD2.SD2State) (j k : Int),
      ((s.minmax (SD2.cat j)).1 ≤ k ∧ k ≤ (s.minmax (SD2.cat j)).2 →
        ((SD2.stepperAMove s j k).steppers j.toNat).counter = k) ∧
      (¬((s.minmax (SD2.cat j)).1 ≤ k ∧ k ≤ (s.minmax (SD2.cat j)).2) →
        SD2.stepperAMove s j k = s)) ∧
    (∀ (s : SD2.SD2State) (j k : Int),
      ((s.minmax (SD2.cat j)).1 ≤ (s.steppers j.toNat).counter + k ∧
          (s.steppers j.toNat).counter + k ≤ (s.minmax (SD2.cat j)).2 →
        ((SD2.stepperRMove s j k).steppers j.toNat).counter
          = (s.steppers j.toNat).counter + k) ∧
      (¬((s.minmax (SD2.cat j)).1 ≤ (s.steppers j.toNat).counter + k ∧
          (s.steppers j.toNat).counter + k ≤ (s.minmax (SD2.cat j)).2) →
        SD2.stepperRMove s j k = s)) := by
  refine ⟨?_, ?_, ?_⟩
  · intro s0 cmds which t hb h0 h6
    have hbounds := execMoves_bounds cmds s0
    constructor
    · have hc : ((execMove (execMoves s0 cmds) (MoveCmd.amoveC which t)).steppers which.toNat).counter
          = clampSeq (execMoves s0 cmds).tMIN (execMoves s0 cmds).tMAX t :=
        on_amove_counter _ which t h0 h6
      rw [hc, hbounds.1, hbounds.2]
      exact clampSeq_mem s0.tMIN s0.tMAX t hb
    · have hc : ((execMove (execMoves s0 cmds) (MoveCmd.rmoveC which t)).steppers which.toNat).counter
          = clampSeq (execMoves s0 cmds).tMIN (execMoves s0 cmds).tMAX
              (((execMoves s0 cmds).steppers which.toNat).counter + t) :=
        on_rmove_counter _ which t h0 h6
      rw [hc, hbounds.1, hbounds.2]
      exact clampSeq_mem s0.tMIN s0.tMAX _ hb
  · intro s j k
    constructor
    · intro hk
      simp only [SD2.stepperAMove]
      rw [if_pos hk]
      simp [updAt, Stepper.stopMove, Stepper.runToNewPosition,
        Stepper.enableOutputs, Stepper.setMaxSpeed]
    · intro hk
      simp only [SD2.stepperAMove]
      rw [if_neg hk]
  · intro s j k
    constructor
    · intro hk
      simp only [SD2.stepperRMove]
      rw [if_pos hk]
      simp [updAt, Stepper.stopMove, Stepper.runToNewPosition,
        Stepper.enableOutputs, Stepper.setMaxSpeed]
    · intro hk
      simp only [SD2.stepperRMove]
      rw [if_neg hk]

/-- C2 witness: after the sequence amove(0, 42), a final rmove(0, 200000)
on the fresh Pico controller lands inside [-100000, 100000]. -/
theorem movesStayInBounds_witness :
    (Pico.picoInit.tMIN ≤ Pico.picoInit.tMAX ∧ (0 : Int) ≤ 0 ∧
      (0 : Int) < (Pico.NUM_T_STEPPERS : Int)) ∧
    (Pico.picoInit.tMIN ≤
      ((execMove (execMoves Pico.picoInit [MoveCmd.amoveC 0 42]) (MoveCmd.rmoveC 0 200000)).steppers (Int.toNat 0)).counter ∧
      ((execMove (execMoves Pico.picoInit [MoveCmd.amoveC 0 42]) (MoveCmd.rmoveC 0 200000)).steppers (Int.toNat 0)).counter ≤ Pico.picoInit.tMAX) := by
  exact ⟨⟨by decide, by decide, by decide⟩,
    (movesStayInBounds.1 Pico.picoInit [MoveCmd.amoveC 0 42] 0 200000
      (by decide) (by decide) (by decide)).2⟩

/-- C3 counterexample: on the Mega variant's gantry axis (index 2, cited
stepperRMove source), a relative move of -5 from position 0 moves to
current + 2*(-5) = -10 inside the widened window [min-max, 2*max], while
an absolute move to current + (-5) = -5 is rejected (outside [0, 10000])
and produces no motion; so relative-move is not absolute-move at
target = current + delta with the same bounds and clamping. -/
theorem megaGantryRMoveDiffersFromAMove :
    ((Mega.stepperRMove Mega.megaInit 2 (-5)).steppers 2).counter = -10 ∧
    ((Mega.stepperAMove Mega.megaInit 2 ((Mega.megaInit.steppers 2).counter + -5)).steppers 2).counter = 0 ∧
    ((Mega.stepperAMove Mega.megaInit 2 ((Mega.megaInit.steppers 2).counter + -5)).steppers 2).phys = 0 ∧
    ((Mega.stepperRMove Mega.megaInit 2 (-5)).steppers 2).counter ≠
      ((Mega.stepperAMove Mega.megaInit 2 ((Mega.megaInit.steppers 2).counter + -5)).steppers 2).counter := by
  decide

/-- C3 (amended): on the Pico tuner variant, relative-move is literally
absolute-move invoked at target = current position + delta: the handlers
agree as whole functions (state and trace), for valid and invalid axis
indices alike.  (The Mega gantry axis instead doubles the delta and
widens the bound window, and the non-Pico variants reject rather than
clamp: see the counterexample.) -/
theorem picoRMoveIsAMoveAtShiftedTarget (s : Pico.PicoState) (which d : Int) :
    Pico.on_rmove s which d
      = Pico.on_amove s which ((s.steppers which.toNat).counter + d) := rfl

/-- C4: the reset-all, reset-one and set-position-no-move handlers of the
Pico variant emit no events at all (no step output, no move span), leave
the physical position of every axis unchanged, and set the hardware
counter of the addressed axes to 0 (resp. the given value) with the
AccelStepper target pinned to the counter, so no later motion results. -/
theorem resetCommandsNoMotion (s : Pico.PicoState) (which v : Int) :
    ((Pico.on_reset_all s).2 = [] ∧
      (∀ i, ((Pico.on_reset_all s).1.steppers i).phys = (s.steppers i).phys) ∧
      (∀ i, i < Pico.NUM_T_STEPPERS →
        ((Pico.on_reset_all s).1.steppers i).counter = 0 ∧
        ((Pico.on_reset_all s).1.steppers i).target = 0)) ∧
    ((Pico.on_reset_stepper s which).2 = [] ∧
      (∀ i, ((Pico.on_reset_stepper s which).1.steppers i).phys = (s.steppers i).phys) ∧
      (0 ≤ which → which < (Pico.NUM_T_STEPPERS : Int) →
        ((Pico.on_reset_stepper s which).1.steppers which.toNat).counter = 0 ∧
        ((Pico.on_reset_stepper s which).1.steppers which.toNat).target = 0)) ∧
    ((Pico.on_set_stepper s which v).2 = [] ∧
      (∀ i, ((Pico.on_set_stepper s which v).1.steppers i).phys = (s.steppers i).phys) ∧
      (0 ≤ which → which < (Pico.NUM_T_STEPPERS : Int) →
        ((Pico.on_set_stepper s which v).1.steppers which.toNat).counter = v ∧
        ((Pico.on_set_stepper s which v).1.steppers which.toNat).target = v)) := by
  refine ⟨⟨rfl, ?_, ?_⟩, ⟨?_, ?_, ?_⟩, ⟨?_, ?_, ?_⟩⟩
  · intro i
    simp only [Pico.on_reset_all]
    split <;> rfl
  · intro i hi
    simp only [Pico.on_reset_all]
    rw [if_pos hi]
    exact ⟨rfl, rfl⟩
  · simp only [Pico.on_reset_stepper]
    split <;> rfl
  · intro i
    simp only [Pico.on_reset_stepper]
    split
    · simp only [updAt]
      split
      · rename_i hEq
        subst hEq
        rfl
      · rfl
    · rfl
  · intro h0 h6
    simp only [Pico.on_reset_stepper]
    rw [if_pos ⟨h0, h6⟩]
    simp [updAt, Stepper.setCurrentPosition]
  · simp only [Pico.on_set_stepper]
    split <;> rfl
  · intro i
    simp only [Pico.on_set_stepper]
    split
    · simp only [updAt]
      split
      · rename_i hEq
        subst hEq
        rfl
      · rfl
    · rfl
  · intro h0 h6
    simp only [Pico.on_set_stepper]
    rw [if_pos ⟨h0, h6⟩]
    simp [updAt, Stepper.setCurrentPosition]

/-- C4 witness: with axis 1 physically at 42 (counter 42), set_stepper(1, 7)
rewrites the counter to 7, emits nothing, and leaves the physical position
of every axis at 42. -/
theorem resetCommandsNoMotion_witness :
    ((0 : Int) ≤ 1 ∧ (1 : Int) < (Pico.NUM_T_STEPPERS : Int)) ∧
    (Pico.on_set_stepper
        { Pico.picoInit with steppers := fun _ => { Pico.initTStepper with counter := 42, phys := 42 } }
        1 7).2 = [] ∧
    ((Pico.on_set_stepper
        { Pico.picoInit with steppers := fun _ => { Pico.initTStepper with counter := 42, phys := 42 } }
        1 7).1.steppers 3).phys = 42 ∧
    ((Pico.on_set_stepper
        { Pico.picoInit with steppers := fun _ => { Pico.initTStepper with counter := 42, phys := 42 } }
        1 7).1.steppers (Int.toNat 1)).counter = 7 := by
  refine ⟨⟨by decide, by decide⟩, (resetCommandsNoMotion _ 1 7).2.2.1, ?_, ?_⟩
  · exact ((resetCommandsNoMotion _ 1 7).2.2.2.1 3).trans (by decide)
  · exact ((resetCommandsNoMotion _ 1 7).2.2.2.2 (by decide) (by decide)).1

/-- C5: on every control-loop iteration the Pico checkPins sensor read
overrides the axis target regardless of the previous state (in particular
regardless of any host-issued target already stored for that axis, since
the state s is arbitrary and feedinSerialData has already run when
checkPins is called): increase sensor active forces target = tMAX,
otherwise decrease sensor active forces target = tMIN, otherwise the axis
is stopped (target pinned to the current counter, so no further motion). -/
theorem checkPinsOverridesTargets (s : Pico.PicoState) (pins : Nat → Bool × Bool)
    (i : Nat) (h : i < Pico.NUM_T_STEPPERS) :
    ((pins i).1 = true → ((Pico.checkPins s pins).1.steppers i).target = s.tMAX) ∧
    ((pins i).1 = false → (pins i).2 = true →
      ((Pico.checkPins s pins).1.steppers i).target = s.tMIN) ∧
    ((pins i).1 = false → (pins i).2 = false →
      ((Pico.checkPins s pins).1.steppers i).target
        = ((Pico.checkPins s pins).1.steppers i).counter ∧
      ((Pico.checkPins s pins).1.steppers i).counter = (s.steppers i).counter) := by
  refine ⟨fun h1 => ?_, fun h1 h2 => ?_, fun h1 h2 => ?_⟩
  · simp [Pico.checkPins, Pico.checkPinsStep, h, h1, Stepper.moveTo]
  · simp [Pico.checkPins, Pico.checkPinsStep, h, h1, h2, Stepper.moveTo]
  · simp [Pico.checkPins, Pico.checkPinsStep, h, h1, h2, Stepper.stop]

/-- C5 witness: with axis 2 previously commanded toward 77777 (an
outstanding host target) and its increase sensor active, checkPins
overrides the target to tMAX = 100000. -/
theorem checkPinsOverridesTargets_witness :
    2 < Pico.NUM_T_STEPPERS ∧
    (((fun j => if j = 2 then ((true : Bool), (false : Bool)) else ((false : Bool), (false : Bool))) 2).1 = true) ∧
    ((Pico.checkPins
        { Pico.picoInit with steppers := fun _ => { Pico.initTStepper with target := 77777 } }
        (fun j => if j = 2 then (true, false) else (false, false))).1.steppers 2).target
      = 100000 := by
  refine ⟨by decide, by decide, ?_⟩
  exact ((checkPinsOverridesTargets
    { Pico.picoInit with steppers := fun _ => { Pico.initTStepper with target := 77777 } }
    (fun j => if j = 2 then (true, false) else (false, false)) 2 (by decide)).1
    (by decide)).trans (by decide)

/-- C6 counterexample: set_min is a command carrying an axis index, yet
with the invalid index -1 it is not ignored on the Pico variant: it
rewrites the shared lower travel bound tMIN from -100000 to 5, changing
the controller state (and hence the clamping of every later move). -/
theorem setMinInvalidIndexHasEffect :
    (Pico.on_set_min Pico.picoInit (-1) 5).1.tMIN = 5 ∧
    Pico.picoInit.tMIN = -100000 ∧
    (Pico.on_set_min Pico.picoInit (-1) 5).1 ≠ Pico.picoInit := by
  refine ⟨rfl, rfl, fun h => ?_⟩
  exact absurd (congrArg Pico.PicoState.tMIN h) (by decide)

/-- C6 (amended): on the Pico variant an out-of-range axis index is
silently ignored — no effect on any state, no error — for the commands
that act on a single axis: absolute-move, relative-move, reset-one and
set-position-no-move.  The set-accel/set-speed commands leave every
stepper untouched but still update the shared default, and set-min /
set-max ignore the index entirely and always update the shared bound. -/
theorem invalidIndexIgnoredForAxisCommands (s : Pico.PicoState) (which w v : Int)
    (h : which < 0 ∨ (Pico.NUM_T_STEPPERS : Int) ≤ which) :
    Pico.on_amove s which w = (s, []) ∧
    Pico.on_rmove s which w = (s, []) ∧
    Pico.on_reset_stepper s which = (s, []) ∧
    Pico.on_set_stepper s which v = (s, []) ∧
    (Pico.on_set_accel s which v).1.steppers = s.steppers ∧
    (Pico.on_set_accel s which v).1.tAcceleration = v ∧
    (Pico.on_set_speed s which v).1.steppers = s.steppers ∧
    (Pico.on_set_speed s which v).1.tSpeed = v ∧
    (Pico.on_set_min s which v).1.steppers = s.steppers ∧
    (Pico.on_set_min s which v).1.tMIN = v ∧
    (Pico.on_set_max s which v).1.steppers = s.steppers ∧
    (Pico.on_set_max s which v).1.tMAX = v := by
  have hg : ¬(0 ≤ which ∧ which < (Pico.NUM_T_STEPPERS : Int)) := by
    simp only [Pico.NUM_T_STEPPERS] at h ⊢
    omega
  refine ⟨?_, ?_, ?_, ?_, ?_, ?_, ?_, ?_, rfl, rfl, rfl, rfl⟩
  · simp only [Pico.on_amove]; rw [if_neg hg]
  · simp only [Pico.on_rmove]; rw [if_neg hg]
  · simp only [Pico.on_reset_stepper]; rw [if_neg hg]
  · simp only [Pico.on_set_stepper]; rw [if_neg hg]
  · simp only [Pico.on_set_accel]; rw [if_neg hg]
  · simp only [Pico.on_set_accel]; rw [if_neg hg]
  · simp only [Pico.on_set_speed]; rw [if_neg hg]
  · simp only [Pico.on_set_speed]; rw [if_neg hg]

/-- C6 witness: axis index 9 is out of range on the 6-axis Pico variant;
amove, reset_stepper and set_stepper with index 9 leave the state exactly
as it was and emit nothing. -/
theorem invalidIndexIgnoredForAxisCommands_witness :
    ((9 : Int) < 0 ∨ (Pico.NUM_T_STEPPERS : Int) ≤ 9) ∧
    Pico.on_amove Pico.picoInit 9 123 = (Pico.picoInit, []) ∧
    Pico.on_reset_stepper Pico.picoInit 9 = (Pico.picoInit, []) ∧
    Pico.on_set_stepper Pico.picoInit 9 55 = (Pico.picoInit, []) := by
  refine ⟨by decide, ?_, ?_, ?_⟩
  · exact (invalidIndexIgnoredForAxisCommands Pico.picoInit 9 123 55 (by decide)).1
  · exact (invalidIndexIgnoredForAxisCommands Pico.picoInit 9 123 55 (by decide)).2.2.1
  · exact (invalidIndexIgnoredForAxisCommands Pico.picoInit 9 123 55 (by decide)).2.2.2.1

/-- C7 (spec-modelled: the host-side Synchronizer is not in the source
tree): the rest gate never emits a motion command earlier than one full
interval after the category's last command; a request arriving before the
interval has elapsed is deferred to exactly the end of the interval; and
for two requests in the same category, when the second arrives before the
interval since the first emission has elapsed it is emitted exactly at
first-emission + interval, never earlier. -/
theorem restGateDefersSecondRequest (p : HostModel.RestPolicy)
    (st : HostModel.RestState) (t1 t2 : Nat)
    (h2 : t2 < (HostModel.restGateStep p st t1).2.lastCmd + p.interval) :
    st.lastCmd + p.interval ≤ HostModel.restGateEmit p st t1 ∧
    (t1 < st.lastCmd + p.interval →
      HostModel.restGateEmit p st t1 = st.lastCmd + p.interval) ∧
    (HostModel.restGateStep p st t1).1 + p.interval ≤
      HostModel.restGateEmit p (HostModel.restGateStep p st t1).2 t2 ∧
    HostModel.restGateEmit p (HostModel.restGateStep p st t1).2 t2
      = (HostModel.restGateStep p st t1).1 + p.interval := by
  simp only [HostModel.restGateStep, HostModel.restGateEmit] at h2 ⊢
  split_ifs at h2 ⊢ <;> omega

/-- C7 witness: interval 5, last command at 0, first request at time 7
(emitted at 7), second request at time 9 (before 7 + 5): it is emitted at
exactly 12. -/
theorem restGateDefersSecondRequest_witness :
    (9 : Nat) < (HostModel.restGateStep { interval := 5 } { lastCmd := 0 } 7).2.lastCmd + 5 ∧
    HostModel.restGateEmit { interval := 5 }
      (HostModel.restGateStep { interval := 5 } { lastCmd := 0 } 7).2 9 = 12 := by
  refine ⟨by decide, ?_⟩
  exact ((restGateDefersSecondRequest { interval := 5 } { lastCmd := 0 } 7 9
    (by decide)).2.2.2).trans (by decide)

/-- C8 (spec-modelled: the host-side Operation Sequencer is not in the
source tree): starting an Operation while another holds the RunLock fails
immediately with OperationAlreadyRunning; every terminal transition
(success, failure or cancellation) releases the lock; and right after any
terminal transition the lock is acquirable. -/
theorem runLockExclusiveAndAlwaysReleased (l : HostModel.RunLock)
    (a b : Nat) (o : HostModel.OpOutcome) (h : l.holder = some a) :
    HostModel.tryAcquire l b
      = Sum.inl HostModel.StartError.OperationAlreadyRunning ∧
    (∀ (l2 : HostModel.RunLock) (o2 : HostModel.OpOutcome),
      (HostModel.releaseOnTerminal l2 o2).holder = none) ∧
    HostModel.tryAcquire (HostModel.releaseOnTerminal l o) b
      = Sum.inr { holder := some b } := by
  refine ⟨?_, fun l2 o2 => rfl, rfl⟩
  simp [HostModel.tryAcquire, h]

/-- C8 witness: with Operation 1 holding the lock, starting Operation 2
fails with OperationAlreadyRunning; after Operation 1 fails (a terminal
transition), Operation 2 acquires the lock immediately. -/
theorem runLockExclusiveAndAlwaysReleased_witness :
    (({ holder := some 1 } : HostModel.RunLock).holder = some 1) ∧
    HostModel.tryAcquire { holder := some 1 } 2
      = Sum.inl HostModel.StartError.OperationAlreadyRunning ∧
    HostModel.tryAcquire
      (HostModel.releaseOnTerminal { holder := some 1 } HostModel.OpOutcome.failure) 2
      = Sum.inr { holder := some 2 } := by
  refine ⟨rfl, ?_, ?_⟩
  · exact (runLockExclusiveAndAlwaysReleased { holder := some 1 } 1 2
      HostModel.OpOutcome.failure rfl).1
  · exact (runLockExclusiveAndAlwaysReleased { holder := some 1 } 1 2
      HostModel.OpOutcome.failure rfl).2.2

/-- C9: on the Pico tuner variant the set-speed, set-acceleration,
set-min-bound and set-max-bound commands update shared controller-wide
state: tSpeed and tAcceleration are rewritten for every axis index,
valid or not; set-min/set-max ignore the axis argument entirely (the
result does not depend on it) and never touch any stepper; and the new
shared bound and speed are what every subsequent move of every axis
clamps with and runs at. -/
theorem setCommandsUpdateSharedState (s : Pico.PicoState) (which w2 amt : Int) :
    (Pico.on_set_speed s which amt).1.tSpeed = amt ∧
    (Pico.on_set_accel s which amt).1.tAcceleration = amt ∧
    Pico.on_set_min s which amt = Pico.on_set_min s w2 amt ∧
    (Pico.on_set_min s which amt).1.tMIN = amt ∧
    (Pico.on_set_min s which amt).1.steppers = s.steppers ∧
    Pico.on_set_max s which amt = Pico.on_set_max s w2 amt ∧
    (Pico.on_set_max s which amt).1.tMAX = amt ∧
    (∀ axis t, 0 ≤ axis → axis < (Pico.NUM_T_STEPPERS : Int) →
      ((Pico.on_amove (Pico.on_set_min s which amt).1 axis t).1.steppers axis.toNat).counter
        = clampSeq amt s.tMAX t ∧
      ((Pico.on_amove (Pico.on_set_max s which amt).1 axis t).1.steppers axis.toNat).counter
        = clampSeq s.tMIN amt t ∧
      ((Pico.on_amove (Pico.on_set_speed s which amt).1 axis t).1.steppers axis.toNat).maxSpeed
        = amt) := by
  refine ⟨?_, ?_, rfl, rfl, rfl, rfl, rfl, ?_⟩
  · simp only [Pico.on_set_speed]
    split <;> rfl
  · simp only [Pico.on_set_accel]
    split <;> rfl
  · intro axis t h0 h6
    refine ⟨on_amove_counter _ axis t h0 h6, on_amove_counter _ axis t h0 h6, ?_⟩
    have hms := on_amove_maxSpeed (Pico.on_set_speed s which amt).1 axis t h0 h6
    rw [hms]
    simp only [Pico.on_set_speed]
    split <;> rfl

/-- C9 witness: set_min with the invalid axis index 99 still rewrites the
shared lower bound to -7, and a subsequent absolute move of axis 0 toward
-50000 clamps at the new bound -7. -/
theorem setCommandsUpdateSharedState_witness :
    ((0 : Int) ≤ 0 ∧ (0 : Int) < (Pico.NUM_T_STEPPERS : Int)) ∧
    (Pico.on_set_min Pico.picoInit 99 (-7)).1.tMIN = -7 ∧
    ((Pico.on_amove (Pico.on_set_min Pico.picoInit 99 (-7)).1 0 (-50000)).1.steppers
        (Int.toNat 0)).counter = -7 := by
  refine ⟨⟨by decide, by decide⟩,
    (setCommandsUpdateSharedState Pico.picoInit 99 0 (-7)).2.2.2.1, ?_⟩
  exact (((setCommandsUpdateSharedState Pico.picoInit 99 0 (-7)).2.2.2.2.2.2.2
    0 (-50000) (by decide) (by decide)).1).trans (by decide)

/-- C10: host-commanded moves are synchronous and exclusive.  First part:
the event trace of any Pico control-loop iteration (any batch of decoded
frames, any sensor state) is move-atomic — at most one blocking
host-commanded move is ever open, every opened move closes before the
handler returns, and no frame decode or limit-sensor read occurs while a
move is open.  Second part: the blocking runToNewPosition completes
inside the handler: when on_amove (or on_rmove) returns, the axis counter
and target already sit at the clamped commanded target. -/
theorem hostMovesSynchronousAndExclusive :
    (∀ (s : Pico.PicoState) (frames : List Pico.Frame) (pins : Nat → Bool × Bool),
      movesAtomic (Pico.loopIter s frames pins).2 = true) ∧
    (∀ (s : Pico.PicoState) (which wh : Int),
      0 ≤ which → which < (Pico.NUM_T_STEPPERS : Int) →
      ((Pico.on_amove s which wh).1.steppers which.toNat).counter
        = clampSeq s.tMIN s.tMAX wh ∧
      ((Pico.on_amove s which wh).1.steppers which.toNat).target
        = clampSeq s.tMIN s.tMAX wh ∧
      ((Pico.on_rmove s which wh).1.steppers which.toNat).counter
        = clampSeq s.tMIN s.tMAX ((s.steppers which.toNat).counter + wh)) := by
  constructor
  · intro s frames pins
    show movesAtomicAux false
      ((Pico.feedin s frames).2
        ++ ((Pico.checkPins (Pico.feedin s frames).1 pins).2
            ++ (Pico.loopMotor (Pico.checkPins (Pico.feedin s frames).1 pins).1).2)) = true
    rw [feedin_trace_good]
    show movesAtomicAux false
      (((List.range Pico.NUM_T_STEPPERS).map Ev.sensorRead)
        ++ (Pico.loopMotor (Pico.checkPins (Pico.feedin s frames).1 pins).1).2) = true
    rw [movesAtomicAux_sensors]
    have h := movesAtomicAux_allSteps
      (Pico.loopMotor (Pico.checkPins (Pico.feedin s frames).1 pins).1).2
      (loopMotor_trace_steps _) []
    simpa using h
  · intro s which wh h0 h6
    refine ⟨on_amove_counter s which wh h0 h6, ?_, on_rmove_counter s which wh h0 h6⟩
    simp only [Pico.on_amove]
    rw [if_pos ⟨h0, h6⟩]
    simp [updAt, Stepper.runToNewPosition, Stepper.disableOutputs,
      Stepper.enableOutputs, Stepper.setMaxSpeed]

/-- C10 witness: a loop iteration that decodes an absolute and a relative
move with no sensor active yields a move-atomic trace, and an absolute
move of axis 0 to 150000 has already completed (counter at the clamped
target 100000) when its handler returns. -/
theorem hostMovesSynchronousAndExclusive_witness :
    movesAtomic (Pico.loopIter Pico.picoInit
      [Pico.Frame.amove 0 10, Pico.Frame.rmove 1 (-3)]
      (fun _ => (false, false))).2 = true ∧
    ((0 : Int) ≤ 0 ∧ (0 : Int) < (Pico.NUM_T_STEPPERS : Int)) ∧
    ((Pico.on_amove Pico.picoInit 0 150000).1.steppers (Int.toNat 0)).counter = 100000 := by
  refine ⟨hostMovesSynchronousAndExclusive.1 Pico.picoInit
      [Pico.Frame.amove 0 10, Pico.Frame.rmove 1 (-3)] (fun _ => (false, false)),
    ⟨by decide, by decide⟩, ?_⟩
  exact ((hostMovesSynchronousAndExclusive.2 Pico.picoInit 0 150000
    (by decide) (by decide)).1).trans (by decide)
